import Mathlib

/-!
A shallow embedding of the pygeoif geometry module (geometry.py) and proofs
about its constructors, accessors and the WKT parser.

Modelling conventions:
* Python values reaching the library are modelled by the inductive type
  PyVal: numbers (ints and floats, as rationals), strings, sequences
  (Python lists and tuples are conflated into one sequence former; the
  mutability difference between them is not modelled), None, and objects
  exposing the structural-mapping protocol __geo_interface__ (a geo node
  carries the mapping's type string and its coordinates value).
* Python floats are modelled as rationals; float(x) is pyFloat, including
  the parse of numeric string literals (exponents are not modelled, the
  library's WKT subset never produces them).
* Raised exceptions are modelled with Except PyErr: each constructor,
  property and function of the source becomes a Lean function returning
  Except PyErr of its result.  Explicit match-style error plumbing mirrors
  the source's statement order.
-/

set_option maxRecDepth 8192

/-- The exception kinds raised by geometry.py. -/
inductive PyErr where
  | typeError
  | valueError
  | indexError
  | attributeError
  | assertionError
  | notImplementedError
deriving DecidableEq

/-- A Python value as seen by the library's constructors. -/
inductive PyVal where
  | none : PyVal
  | num : ℚ → PyVal
  | str : String → PyVal
  | seq : List PyVal → PyVal
  | geo : String → PyVal → PyVal

mutual

def PyVal.decEq : (a b : PyVal) → Decidable (a = b)
  | .none, .none => isTrue rfl
  | .num a, .num b =>
      if h : a = b then isTrue (by rw [h])
      else isFalse (by intro hh; cases hh; exact h rfl)
  | .str a, .str b =>
      if h : a = b then isTrue (by rw [h])
      else isFalse (by intro hh; cases hh; exact h rfl)
  | .seq xs, .seq ys =>
      match PyVal.decEqList xs ys with
      | isTrue h => isTrue (by rw [h])
      | isFalse h => isFalse (by intro hh; cases hh; exact h rfl)
  | .geo t c, .geo u d =>
      if h1 : t = u then
        match PyVal.decEq c d with
        | isTrue h2 => isTrue (by rw [h1, h2])
        | isFalse h2 => isFalse (by intro hh; cases hh; exact h2 rfl)
      else isFalse (by intro hh; cases hh; exact h1 rfl)
  | .none, .num _ => isFalse (by simp)
  | .none, .str _ => isFalse (by simp)
  | .none, .seq _ => isFalse (by simp)
  | .none, .geo _ _ => isFalse (by simp)
  | .num _, .none => isFalse (by simp)
  | .num _, .str _ => isFalse (by simp)
  | .num _, .seq _ => isFalse (by simp)
  | .num _, .geo _ _ => isFalse (by simp)
  | .str _, .none => isFalse (by simp)
  | .str _, .num _ => isFalse (by simp)
  | .str _, .seq _ => isFalse (by simp)
  | .str _, .geo _ _ => isFalse (by simp)
  | .seq _, .none => isFalse (by simp)
  | .seq _, .num _ => isFalse (by simp)
  | .seq _, .str _ => isFalse (by simp)
  | .seq _, .geo _ _ => isFalse (by simp)
  | .geo _ _, .none => isFalse (by simp)
  | .geo _ _, .num _ => isFalse (by simp)
  | .geo _ _, .str _ => isFalse (by simp)
  | .geo _ _, .seq _ => isFalse (by simp)

def PyVal.decEqList : (xs ys : List PyVal) → Decidable (xs = ys)
  | [], [] => isTrue rfl
  | x :: xs, y :: ys =>
      match PyVal.decEq x y, PyVal.decEqList xs ys with
      | isTrue h1, isTrue h2 => isTrue (by rw [h1, h2])
      | isFalse h1, _ => isFalse (by intro hh; cases hh; exact h1 rfl)
      | _, isFalse h2 => isFalse (by intro hh; cases hh; exact h2 rfl)
  | [], _ :: _ => isFalse (by simp)
  | _ :: _, [] => isFalse (by simp)

end

instance : DecidableEq PyVal := PyVal.decEq

instance {ε α : Type} [DecidableEq ε] [DecidableEq α] : DecidableEq (Except ε α) := fun a b =>
  match a, b with
  | .ok x, .ok y =>
      if h : x = y then isTrue (by rw [h])
      else isFalse (by intro hh; cases hh; exact h rfl)
  | .error x, .error y =>
      if h : x = y then isTrue (by rw [h])
      else isFalse (by intro hh; cases hh; exact h rfl)
  | .ok _, .error _ => isFalse (by simp)
  | .error _, .ok _ => isFalse (by simp)

def tyPoint : String := "Point"

def tyLineString : String := "LineString"

def tyLinearRing : String := "LinearRing"

def tyPolygon : String := "Polygon"

def tyMultiPoint : String := "MultiPoint"

def tyMultiLineString : String := "MultiLineString"

def tyMultiPolygon : String := "MultiPolygon"

/-- Python truthiness of a value (used by statements such as
if holes: and if self._coordinates:). -/
def pyTruthy (v : PyVal) : Bool :=
  match v with
  | .none => false
  | .num q => q ≠ 0
  | .str s => s ≠ ""
  | .seq xs => ¬ xs.isEmpty
  | .geo _ _ => true

/-- Value of a digit run, most significant first. -/
def digitsVal (ds : List Char) : ℕ :=
  ds.foldl (fun a c => a * 10 + (c.toNat - 48)) 0

/-- Decimal literal without sign: digits, optionally a dot and more digits.
At least one digit must be present. -/
def parseDecimal (s : List Char) : Option ℚ :=
  let ip := s.takeWhile Char.isDigit
  let rest := s.dropWhile Char.isDigit
  match rest with
  | [] => if ip.isEmpty then Option.none else Option.some (mkRat (digitsVal ip) 1)
  | '.' :: fp =>
      if fp.all Char.isDigit ∧ ¬ (ip.isEmpty ∧ fp.isEmpty) then
        Option.some (mkRat (digitsVal ip * 10 ^ fp.length + digitsVal fp) (10 ^ fp.length))
      else Option.none
  | _ => Option.none

/-- Strip leading and trailing whitespace from a character list
(Python str.strip with no argument). -/
def pyStripChars (s : List Char) : List Char :=
  ((s.dropWhile Char.isWhitespace).reverse.dropWhile Char.isWhitespace).reverse

/-- Python float(string): optional sign around a decimal literal,
surrounding whitespace allowed. -/
def parsePyFloat (s : String) : Option ℚ :=
  match pyStripChars s.data with
  | '+' :: rest => parseDecimal rest
  | '-' :: rest => (parseDecimal rest).map Neg.neg
  | t => parseDecimal t

/-- Python float(x): identity on numbers, parse on strings, TypeError on
sequences, None and objects; an unparsable string is a ValueError. -/
def pyFloat (v : PyVal) : Except PyErr ℚ :=
  match v with
  | .num q => .ok q
  | .str s =>
      match parsePyFloat s with
      | Option.some q => .ok q
      | Option.none => .error .valueError
  | _ => .error .typeError

/-- Python tuple(x) / list(x) / iteration over x: materialise an iterable
into its element list.  Sequences yield their elements, strings their
one-character strings; numbers, None and plain objects are not iterable. -/
def pyTuple (v : PyVal) : Except PyErr (List PyVal) :=
  match v with
  | .seq xs => .ok xs
  | .str s => .ok (s.data.map (fun c => PyVal.str (String.mk [c])))
  | _ => .error .typeError

/-- Python len(x). -/
def pyLen (v : PyVal) : Except PyErr ℕ :=
  match v with
  | .seq xs => .ok xs.length
  | .str s => .ok s.length
  | _ => .error .typeError

/-- Python x.append(y): only list-like sequences support it.  (In Python a
tuple would raise AttributeError; the conflated sequence model treats every
sequence as appendable, matching the list case.) -/
def pyAppend (v x : PyVal) : Except PyErr PyVal :=
  match v with
  | .seq xs => .ok (.seq (xs ++ [x]))
  | _ => .error .attributeError

/-- Indexing a list with a possibly negative Python index. -/
def indexList {α : Type} (xs : List α) (i : Int) : Option α :=
  if i < 0 then
    if 0 ≤ i + xs.length then xs.get? (i + xs.length).toNat else Option.none
  else xs.get? i.toNat

/-- Python x[i] for integer i (negative indices count from the end). -/
def pyIndex (v : PyVal) (i : Int) : Except PyErr PyVal :=
  match v with
  | .seq xs =>
      match indexList xs i with
      | Option.some x => .ok x
      | Option.none => .error .indexError
  | .str s =>
      match indexList s.data i with
      | Option.some c => .ok (.str (String.mk [c]))
      | Option.none => .error .indexError
  | _ => .error .typeError

/-- Python x[1:] on a subscriptable value, as an element list. -/
def pySliceFrom1 (v : PyVal) : Except PyErr (List PyVal) :=
  match v with
  | .seq xs => .ok (xs.drop 1)
  | .str s => .ok ((s.data.drop 1).map (fun c => PyVal.str (String.mk [c])))
  | _ => .error .typeError

/-- [float(x) for x in xs]. -/
def pyFloatList : List PyVal → Except PyErr (List ℚ)
  | [] => .ok []
  | x :: rest =>
      match pyFloat x with
      | .error e => .error e
      | .ok q =>
          match pyFloatList rest with
          | .error e => .error e
          | .ok qs => .ok (q :: qs)

/-- A Point object: its _coordinates attribute.  The raw construction paths
store coerced floats; the mapping path stores the mapping's coordinate
elements verbatim, so the stored list is a list of PyVal. -/
structure Point where
  _coordinates : List PyVal
deriving DecidableEq

/-- Point.__init__(*args), geometry.py lines 72-102.  One argument: either
an object with __geo_interface__ of declared type Point (coordinates copied
verbatim through list(...)), or a sequence of 2-3 float-coercible values;
2-3 arguments: coerced directly; otherwise ValueError. -/
def Point.init (args : List PyVal) : Except PyErr Point :=
  match args with
  | [a] =>
      match a with
      | .geo t c =>
          if t = tyPoint then
            match pyTuple c with
            | .error e => .error e
            | .ok xs => .ok ⟨xs⟩
          else .error .typeError
      | .seq xs =>
          if 2 ≤ xs.length ∧ xs.length ≤ 3 then
            match pyFloatList xs with
            | .error e => .error e
            | .ok qs => .ok ⟨qs.map PyVal.num⟩
          else .error .typeError
      | _ => .error .typeError
  | other =>
      if 2 ≤ other.length ∧ other.length ≤ 3 then
        match pyFloatList other with
        | .error e => .error e
        | .ok qs => .ok ⟨qs.map PyVal.num⟩
      else .error .valueError

/-- Point.coords getter: tuple(self._coordinates). -/
def Point.coords (p : Point) : List PyVal := p._coordinates

/-- A LineString object: its _coordinates attribute.  The raw construction
path stores a fresh sequence of coordinate tuples; the mapping path stores
the mapping's coordinates value verbatim (no re-validation), so the
attribute is an arbitrary PyVal. -/
structure LineString where
  _coordinates : PyVal
deriving DecidableEq

/-- The point-normalising loop of LineString.__init__ (and of the coords
setter), geometry.py lines 169-178: each element becomes a Point, its
coordinate length is compared against the previous element's length once
the accumulator is non-empty, and the point's coordinate tuple is
appended. -/
def lineCoords : List PyVal → List PyVal → ℕ → Except PyErr (List PyVal)
  | [], acc, _ => .ok acc
  | c :: rest, acc, l2 =>
      match Point.init [c] with
      | .error e => .error e
      | .ok p =>
          let l := p._coordinates.length
          if acc ≠ [] ∧ l ≠ l2 then .error .valueError
          else lineCoords rest (acc ++ [.seq p._coordinates]) l

/-- LineString.__init__(coordinates), geometry.py lines 143-180: a mapping
of type LineString/LinearRing has its coordinates adopted verbatim, a
Polygon mapping is a ValueError, any other mapping a NotImplementedError;
a raw sequence is normalised point by point; anything else a ValueError. -/
def LineString.init (coordinates : PyVal) : Except PyErr LineString :=
  match coordinates with
  | .geo t c =>
      if t = tyLineString ∨ t = tyLinearRing then .ok ⟨c⟩
      else if t = tyPolygon then .error .valueError
      else .error .notImplementedError
  | .seq xs =>
      match lineCoords xs [] 0 with
      | .error e => .error e
      | .ok cs => .ok ⟨.seq cs⟩
  | _ => .error .valueError

/-- LineString.coords getter: tuple(self._coordinates). -/
def LineString.coords (ls : LineString) : Except PyErr (List PyVal) :=
  pyTuple ls._coordinates

/-- LineString.coords setter, geometry.py lines 187-201: only raw
sequences are accepted, normalised exactly as in the constructor.  The
replaced object's previous state is irrelevant, so the setter is a
function of the new coordinates alone. -/
def LineString.setCoords (coordinates : PyVal) : Except PyErr LineString :=
  match coordinates with
  | .seq xs =>
      match lineCoords xs [] 0 with
      | .error e => .error e
      | .ok cs => .ok ⟨.seq cs⟩
  | _ => .error .valueError

/-- A LinearRing object: its _coordinates attribute (same representation
as LineString, of which it is a subclass). -/
structure LinearRing where
  _coordinates : PyVal
deriving DecidableEq

/-- The ring-closing step shared by LinearRing.__init__ and its coords
setter, geometry.py lines 222-223 and 236-237:
if self._coordinates[0] != self._coordinates[-1] then append the first
coordinate. -/
def closeRing (v : PyVal) : Except PyErr PyVal :=
  match pyIndex v 0 with
  | .error e => .error e
  | .ok f =>
      match pyIndex v (-1 : Int) with
      | .error e => .error e
      | .ok l =>
          if f ≠ l then
            match pyAppend v f with
            | .error e => .error e
            | .ok w => .ok w
          else .ok v

/-- LinearRing.__init__(coordinates), geometry.py lines 220-223. -/
def LinearRing.init (coordinates : PyVal) : Except PyErr LinearRing :=
  match LineString.init coordinates with
  | .error e => .error e
  | .ok ls =>
      match closeRing ls._coordinates with
      | .error e => .error e
      | .ok w => .ok ⟨w⟩

/-- LinearRing.coords getter, geometry.py lines 227-231: the stored
sequence is returned only if it is still closed, else ValueError. -/
def LinearRing.coords (r : LinearRing) : Except PyErr (List PyVal) :=
  match pyIndex r._coordinates 0 with
  | .error e => .error e
  | .ok f =>
      match pyIndex r._coordinates (-1 : Int) with
      | .error e => .error e
      | .ok l =>
          if f = l then pyTuple r._coordinates else .error .valueError

/-- LinearRing.coords setter, geometry.py lines 234-237: the LineString
setter followed by the closing step. -/
def LinearRing.setCoords (coordinates : PyVal) : Except PyErr LinearRing :=
  match LineString.setCoords coordinates with
  | .error e => .error e
  | .ok ls =>
      match closeRing ls._coordinates with
      | .error e => .error e
      | .ok w => .ok ⟨w⟩

/-- A Polygon object: its _exterior and _interiors attributes. -/
structure Polygon where
  _exterior : Option LinearRing
  _interiors : List LinearRing
deriving DecidableEq

/-- One iteration of the holes loop of Polygon.__init__, geometry.py
lines 304-312: a mapping hole must declare type LinearRing (else
NotImplementedError), a raw sequence becomes a ring, and any other value
is silently skipped (the loop has no else branch). -/
def holeAcc : List PyVal → Except PyErr (List LinearRing)
  | [] => .ok []
  | h :: rest =>
      match h with
      | .geo t _ =>
          if t = tyLinearRing then
            match LinearRing.init h with
            | .error e => .error e
            | .ok r =>
                match holeAcc rest with
                | .error e => .error e
                | .ok rs => .ok (r :: rs)
          else .error .notImplementedError
      | .seq _ =>
          match LinearRing.init h with
          | .error e => .error e
          | .ok r =>
              match holeAcc rest with
              | .error e => .error e
              | .ok rs => .ok (r :: rs)
      | _ => holeAcc rest

/-- The holes parameter handling of Polygon.__init__, geometry.py lines
302-314: a falsy holes value leaves the interiors empty, otherwise the
value is iterated and each item processed by the holes loop. -/
def processHoles (holes : PyVal) : Except PyErr (List LinearRing) :=
  if pyTruthy holes then
    match pyTuple holes with
    | .error e => .error e
    | .ok hs => holeAcc hs
  else .ok []

/-- LinearRing(hole) applied to each element of a sequence of rings (the
mapping-shell interiors loop and the paired-shell holes loop). -/
def ringsOf : List PyVal → Except PyErr (List LinearRing)
  | [] => .ok []
  | r :: rest =>
      match LinearRing.init r with
      | .error e => .error e
      | .ok lr =>
          match ringsOf rest with
          | .error e => .error e
          | .ok lrs => .ok (lr :: lrs)

/-- The Polygon-typed mapping shell branch of Polygon.__init__,
geometry.py lines 319-326: the mapping's first coordinate ring becomes
the exterior; when the mapping carries more than one ring, the interiors
collected from the holes parameter are replaced by the mapping's
remaining rings, else those holes-derived interiors are kept. -/
def polygonGeoShell (c : PyVal) (hrs : List LinearRing) : Except PyErr Polygon :=
  match pyIndex c 0 with
  | .error e => .error e
  | .ok r0 =>
      match LinearRing.init r0 with
      | .error e => .error e
      | .ok ext =>
          match pyLen c with
          | .error e => .error e
          | .ok n =>
              if 1 < n then
                match pySliceFrom1 c with
                | .error e => .error e
                | .ok rest =>
                    match ringsOf rest with
                    | .error e => .error e
                    | .ok irs => .ok ⟨Option.some ext, irs⟩
              else .ok ⟨Option.some ext, hrs⟩

/-- Polygon.__init__(shell, holes), geometry.py lines 280-339.  The holes
parameter is processed first; then the shell: a LinearRing mapping becomes
the exterior; a Polygon mapping contributes its first ring as exterior and,
only when it carries more than one ring, replaces the interiors with its
remaining rings; any other mapping is NotImplementedError.  A raw sequence
shell is disambiguated by the nesting depth of shell[0][0] (an assert
first checks that shell[0] is a sequence): the deep form is a
(shell, holes) pair whose holes are appended to the interiors already
collected, the flat form is the exterior ring itself. -/
def Polygon.init (shell holes : PyVal) : Except PyErr Polygon :=
  match processHoles holes with
  | .error e => .error e
  | .ok hrs =>
      match shell with
      | .geo t c =>
          if t = tyLinearRing then
            match LinearRing.init shell with
            | .error e => .error e
            | .ok r => .ok ⟨Option.some r, hrs⟩
          else if t = tyPolygon then polygonGeoShell c hrs
          else .error .notImplementedError
      | .seq xs =>
          match pyIndex (.seq xs) 0 with
          | .error e => .error e
          | .ok s0 =>
              match s0 with
              | .seq _ =>
                  match pyIndex s0 0 with
                  | .error e => .error e
                  | .ok s00 =>
                      match s00 with
                      | .seq _ =>
                          match LinearRing.init s0 with
                          | .error e => .error e
                          | .ok ext =>
                              match pyIndex (.seq xs) 1 with
                              | .error e => .error e
                              | .ok s1 =>
                                  match pyTuple s1 with
                                  | .error e => .error e
                                  | .ok hs =>
                                      match ringsOf hs with
                                      | .error e => .error e
                                      | .ok irs => .ok ⟨Option.some ext, hrs ++ irs⟩
                      | _ =>
                          match LinearRing.init (.seq xs) with
                          | .error e => .error e
                          | .ok ext => .ok ⟨Option.some ext, hrs⟩
              | _ => .error .assertionError
      | _ => .error .valueError

/-- Polygon.interiors generator, geometry.py lines 347-354: with an
exterior present it yields the stored interior rings (nothing when the
list is empty); without one it yields a single None sentinel. -/
def Polygon.interiorsGen (p : Polygon) : List (Option LinearRing) :=
  match p._exterior with
  | Option.some _ => p._interiors.map Option.some
  | Option.none => [Option.none]

/-- A MultiPoint object: its _geoms attribute. -/
structure MultiPoint where
  _geoms : List Point
deriving DecidableEq

/-- Point(coord) applied to each element of a coordinate sequence (the
per-vertex loops of MultiPoint and its unique method). -/
def pointsOf : List PyVal → Except PyErr (List Point)
  | [] => .ok []
  | c :: rest =>
      match Point.init [c] with
      | .error e => .error e
      | .ok p =>
          match pointsOf rest with
          | .error e => .error e
          | .ok ps => .ok (p :: ps)

/-- The per-interior-ring vertex loop of MultiPoint._from_geo_interface:
for each yielded interior, iterate its coords and build a Point from each
vertex; a None sentinel has no coords attribute. -/
def ringVertexPoints : List (Option LinearRing) → Except PyErr (List Point)
  | [] => .ok []
  | Option.none :: _ => .error .attributeError
  | Option.some r :: rest =>
      match LinearRing.coords r with
      | .error e => .error e
      | .ok cs =>
          match pointsOf cs with
          | .error e => .error e
          | .ok ps =>
              match ringVertexPoints rest with
              | .error e => .error e
              | .ok qs => .ok (ps ++ qs)

/-- MultiPoint._from_geo_interface(point), geometry.py lines 413-433.
A Point mapping contributes one Point; a LineString/LinearRing mapping one
Point per vertex; a Polygon mapping rebuilds the polygon and walks its
exterior, but the loop variable p is rebound to the last vertex Point, so
the following p.interiors access raises AttributeError whenever the
exterior has at least one vertex; any other mapping type is a ValueError. -/
def fromGeoInterface (point : PyVal) : Except PyErr (List Point) :=
  match point with
  | .geo t c =>
      if t = tyPoint then
        match Point.init [point] with
        | .error e => .error e
        | .ok p => .ok [p]
      else if t = tyLinearRing ∨ t = tyLineString then
        match LineString.init point with
        | .error e => .error e
        | .ok l =>
            match LineString.coords l with
            | .error e => .error e
            | .ok cs => pointsOf cs
      else if t = tyPolygon then
        match Polygon.init c .none with
        | .error e => .error e
        | .ok p =>
            match p._exterior with
            | Option.some ext =>
                match LinearRing.coords ext with
                | .error e => .error e
                | .ok ecs =>
                    match pointsOf ecs with
                    | .error e => .error e
                    | .ok pts =>
                        if ecs = [] then
                          match ringVertexPoints p.interiorsGen with
                          | .error e => .error e
                          | .ok qs => .ok (pts ++ qs)
                        else .error .attributeError
            | Option.none => .error .attributeError
      else .error .valueError
  | _ => .error .attributeError

/-- The element loop of MultiPoint.__init__, geometry.py lines 400-407:
mapping objects are expanded through _from_geo_interface, raw sequences
become single Points, anything else is a ValueError. -/
def mpItems : List PyVal → Except PyErr (List Point)
  | [] => .ok []
  | point :: rest =>
      match point with
      | .geo _ _ =>
          match fromGeoInterface point with
          | .error e => .error e
          | .ok ps =>
              match mpItems rest with
              | .error e => .error e
              | .ok qs => .ok (ps ++ qs)
      | .seq _ =>
          match Point.init [point] with
          | .error e => .error e
          | .ok p =>
              match mpItems rest with
              | .error e => .error e
              | .ok qs => .ok (p :: qs)
      | _ => .error .valueError

/-- MultiPoint.__init__(points), geometry.py lines 379-411. -/
def MultiPoint.init (points : PyVal) : Except PyErr MultiPoint :=
  match points with
  | .seq xs =>
      match mpItems xs with
      | .error e => .error e
      | .ok ps => .ok ⟨ps⟩
  | .geo _ _ =>
      match fromGeoInterface points with
      | .error e => .error e
      | .ok ps => .ok ⟨ps⟩
  | _ => .error .valueError

/-- MultiPoint.unique(), geometry.py lines 439-448: collect each child's
coordinate tuple, form the distinct set (list(set(...)) iterates in an
unspecified order; List.dedup is one concrete realisation), and rebuild
one Point per distinct tuple. -/
def MultiPoint.unique (m : MultiPoint) : Except PyErr MultiPoint :=
  let coords := m._geoms.map (fun g => PyVal.seq g._coordinates)
  match pointsOf coords.dedup with
  | .error e => .error e
  | .ok ps => .ok ⟨ps⟩

/-- A MultiLineString object: its _geoms attribute. -/
structure MultiLineString where
  _geoms : List LineString
deriving DecidableEq

/-- LineString(line) applied to each element of a sequence. -/
def linesOf : List PyVal → Except PyErr (List LineString)
  | [] => .ok []
  | l :: rest =>
      match LineString.init l with
      | .error e => .error e
      | .ok ls =>
          match linesOf rest with
          | .error e => .error e
          | .ok lss => .ok (ls :: lss)

/-- MultiLineString.__init__(lines), geometry.py lines 476-507: a raw
sequence of line-like inputs; or a single mapping of type
LineString/LinearRing (one child built from its coordinates) or
MultiLineString (one child per coordinate member).  A mapping of any other
type matches no branch and falls through, leaving the collection empty;
any non-mapping non-sequence is a ValueError. -/
def MultiLineString.init (lines : PyVal) : Except PyErr MultiLineString :=
  match lines with
  | .seq xs =>
      match linesOf xs with
      | .error e => .error e
      | .ok ls => .ok ⟨ls⟩
  | .geo t c =>
      if t = tyLinearRing ∨ t = tyLineString then
        match LineString.init c with
        | .error e => .error e
        | .ok l => .ok ⟨[l]⟩
      else if t = tyMultiLineString then
        match pyTuple c with
        | .error e => .error e
        | .ok ms =>
            match linesOf ms with
            | .error e => .error e
            | .ok ls => .ok ⟨ls⟩
      else .ok ⟨[]⟩
  | _ => .error .valueError

/-- A MultiPolygon object: its _geoms attribute. -/
structure MultiPolygon where
  _geoms : List Polygon
deriving DecidableEq

/-- The element loop of MultiPolygon.__init__, geometry.py lines 571-580:
a raw element is a (shell, holes) pair accessed positionally, a mapping
element becomes Polygon(element), anything else is a ValueError. -/
def polysOf : List PyVal → Except PyErr (List Polygon)
  | [] => .ok []
  | polygon :: rest =>
      match polygon with
      | .seq _ =>
          match pyIndex polygon 0 with
          | .error e => .error e
          | .ok sh =>
              match pyIndex polygon 1 with
              | .error e => .error e
              | .ok hl =>
                  match Polygon.init sh hl with
                  | .error e => .error e
                  | .ok p =>
                      match polysOf rest with
                      | .error e => .error e
                      | .ok ps => .ok (p :: ps)
      | .geo _ _ =>
          match Polygon.init polygon .none with
          | .error e => .error e
          | .ok p =>
              match polysOf rest with
              | .error e => .error e
              | .ok ps => .ok (p :: ps)
      | _ => .error .valueError

/-- MultiPolygon.__init__(polygons), geometry.py lines 546-589: a raw
sequence of pairs or mappings; a single Polygon mapping; a MultiPolygon
mapping is NotImplementedError; any other mapping type falls through with
an empty collection; anything else is a ValueError. -/
def MultiPolygon.init (polygons : PyVal) : Except PyErr MultiPolygon :=
  match polygons with
  | .seq xs =>
      match polysOf xs with
      | .error e => .error e
      | .ok ps => .ok ⟨ps⟩
  | .geo t _ =>
      if t = tyPolygon then
        match Polygon.init polygons .none with
        | .error e => .error e
        | .ok p => .ok ⟨[p]⟩
      else if t = tyMultiPolygon then .error .notImplementedError
      else .ok ⟨[]⟩
  | _ => .error .valueError

/-- The result of the as_shape factory and of from_wkt: one of the seven
geometry kinds, or - on the non-mapping input path of as_shape - a
TypeError instance returned as an ordinary value (geometry.py line 636). -/
inductive Shape where
  | point : Point → Shape
  | lineString : LineString → Shape
  | linearRing : LinearRing → Shape
  | polygon : Polygon → Shape
  | multiPoint : MultiPoint → Shape
  | multiLineString : MultiLineString → Shape
  | multiPolygon : MultiPolygon → Shape
  | errObj : PyErr → Shape
deriving DecidableEq

/-- as_shape(feature), geometry.py lines 612-636: dispatch on the
mapping's declared type string; an unknown type raises
NotImplementedError; an input without the protocol RETURNS (does not
raise) a TypeError instance. -/
def as_shape (feature : PyVal) : Except PyErr Shape :=
  match feature with
  | .geo ft coords =>
      if ft = tyPoint then
        match Point.init [coords] with
        | .error e => .error e
        | .ok g => .ok (.point g)
      else if ft = tyLineString then
        match LineString.init coords with
        | .error e => .error e
        | .ok g => .ok (.lineString g)
      else if ft = tyLinearRing then
        match LinearRing.init coords with
        | .error e => .error e
        | .ok g => .ok (.linearRing g)
      else if ft = tyPolygon then
        match Polygon.init coords .none with
        | .error e => .error e
        | .ok g => .ok (.polygon g)
      else if ft = tyMultiPoint then
        match MultiPoint.init coords with
        | .error e => .error e
        | .ok g => .ok (.multiPoint g)
      else if ft = tyMultiLineString then
        match MultiLineString.init coords with
        | .error e => .error e
        | .ok g => .ok (.multiLineString g)
      else if ft = tyMultiPolygon then
        match MultiPolygon.init coords with
        | .error e => .error e
        | .ok g => .ok (.multiPolygon g)
      else .error .notImplementedError
  | _ => .ok (.errObj .typeError)

/-- _Feature.__geo_interface__ specialised to LineString, geometry.py
lines 32-38: the mapping view {type, coordinates} is produced only when
both self._type and self._coordinates are truthy; self._type is the
non-empty string 'LineString', so only the coordinates' truthiness
matters.  A falsy coordinates value makes the property return None. -/
def LineString.geoInterface (ls : LineString) : Except PyErr (Option (String × List PyVal)) :=
  if pyTruthy ls._coordinates then
    match pyTuple ls._coordinates with
    | .error e => .error e
    | .ok cs => .ok (Option.some (tyLineString, cs))
  else .ok Option.none

/-- Python s.find(c): index of the first occurrence, -1 when absent. -/
def findIdx : List Char → Char → ℕ → Int
  | [], _, _ => -1
  | c :: rest, t, i => if c = t then (i : Int) else findIdx rest t (i + 1)

def pyFind (s : List Char) (c : Char) : Int := findIdx s c 0

/-- Clamp one bound of a Python slice to the list. -/
def sliceIdx (len : ℕ) (i : Int) : ℕ :=
  if i < 0 then (i + len).toNat else min i.toNat len

/-- Python s[i:j] on a string's characters. -/
def pySlice (s : List Char) (i j : Int) : List Char :=
  let a := sliceIdx s.length i
  let b := sliceIdx s.length j
  (s.drop a).take (b - a)

/-- Python s.split() - split on whitespace runs, empty pieces dropped. -/
def splitWsAux : List Char → List Char → List (List Char)
  | [], acc => if acc.isEmpty then [] else [acc.reverse]
  | c :: rest, acc =>
      if c.isWhitespace then
        if acc.isEmpty then splitWsAux rest []
        else acc.reverse :: splitWsAux rest []
      else splitWsAux rest (c :: acc)

def pySplitWs (s : List Char) : List (List Char) := splitWsAux s []

/-- Python s.split(',') - split at every comma, empty pieces kept. -/
def splitCommaAux : List Char → List Char → List (List Char)
  | [], acc => [acc.reverse]
  | c :: rest, acc =>
      if c = ',' then acc.reverse :: splitCommaAux rest []
      else splitCommaAux rest (c :: acc)

def pySplitComma (s : List Char) : List (List Char) := splitCommaAux s []

def wktPOINT : String := "POINT"

def wktLINESTRING : String := "LINESTRING"

def wktLINEARRING : String := "LINEARRING"

/-- The whitespace-separated tokens of a character run, as Python string
values. -/
def strToks (cs : List Char) : List PyVal :=
  (pySplitWs cs).map (fun t => PyVal.str (String.mk t))

/-- from_wkt(geo_str), geometry.py lines 639-653: strip, dispatch on a
prefix match against POINT / LINESTRING / LINEARRING, cut the text between
the first parentheses, split it into tokens and feed them to the matching
constructor; any other prefix raises NotImplementedError. -/
def from_wkt (geoStr : String) : Except PyErr Shape :=
  let wkt := pyStripChars geoStr.data
  if List.isPrefixOf wktPOINT.data wkt then
    match Point.init [.seq (strToks (pySlice wkt (pyFind wkt '(' + 1) (pyFind wkt ')')))] with
    | .error e => .error e
    | .ok p => .ok (.point p)
  else if List.isPrefixOf wktLINESTRING.data wkt then
    match LineString.init (.seq ((pySplitComma (pySlice wkt (pyFind wkt '(' + 1) (pyFind wkt ')'))).map (fun c => PyVal.seq (strToks c)))) with
    | .error e => .error e
    | .ok l => .ok (.lineString l)
  else if List.isPrefixOf wktLINEARRING.data wkt then
    match LinearRing.init (.seq ((pySplitComma (pySlice wkt (pyFind wkt '(' + 1) (pyFind wkt ')'))).map (fun c => PyVal.seq (strToks c)))) with
    | .error e => .error e
    | .ok r => .ok (.linearRing r)
  else .error .notImplementedError

theorem indexList_zero {α : Type} (xs : List α) : indexList xs 0 = xs.head? := by
  cases xs with
  | nil => simp [indexList]
  | cons x t => simp [indexList]

theorem indexList_neg_one {α : Type} (xs : List α) : indexList xs (-1) = xs.getLast? := by
  cases xs with
  | nil => simp [indexList]
  | cons x t =>
      have h0 : (0 : Int) ≤ -1 + ((x :: t).length : Int) := by
        simp [List.length_cons]
      have h1 : ((-1 : Int) + ((x :: t).length : Int)).toNat = t.length := by
        simp [List.length_cons]
      simp only [indexList, if_pos (by norm_num : (-1 : Int) < 0), if_pos h0, h1]
      rw [List.getLast?_eq_get?]
      simp [List.length_cons]

theorem pyIndex_seq_zero (x : PyVal) (t : List PyVal) :
    pyIndex (.seq (x :: t)) 0 = .ok x := by
  simp [pyIndex, indexList_zero]

theorem pyIndex_seq_zero_ok {xs : List PyVal} {f : PyVal}
    (h : pyIndex (.seq xs) 0 = .ok f) : ∃ t, xs = f :: t := by
  cases xs with
  | nil => simp [pyIndex, indexList_zero] at h
  | cons x t =>
      rw [pyIndex_seq_zero] at h
      cases h
      exact ⟨t, rfl⟩

theorem pyIndex_seq_neg_one {xs : List PyVal} {y : PyVal}
    (h : xs.getLast? = some y) : pyIndex (.seq xs) (-1) = .ok y := by
  simp [pyIndex, indexList_neg_one, h]

theorem closeRing_closed {v w : PyVal} (h : closeRing v = .ok w) :
    ∃ f, pyIndex w 0 = .ok f ∧ pyIndex w (-1) = .ok f := by
  unfold closeRing at h
  cases h0 : pyIndex v 0 with
  | error e => rw [h0] at h; exact absurd h (by simp)
  | ok f =>
      simp only [h0] at h
      cases h1 : pyIndex v (-1) with
      | error e => rw [h1] at h; exact absurd h (by simp)
      | ok l =>
          simp only [h1] at h
          by_cases hfl : f = l
          · rw [if_neg (by simp [hfl])] at h
            cases h
            exact ⟨f, h0, hfl ▸ h1⟩
          · rw [if_pos hfl] at h
            cases v with
            | seq xs =>
                simp only [pyAppend] at h
                cases h
                obtain ⟨t, ht⟩ := pyIndex_seq_zero_ok h0
                subst ht
                refine ⟨f, ?_, ?_⟩
                · exact pyIndex_seq_zero f (t ++ [f])
                · exact pyIndex_seq_neg_one (List.getLast?_concat _)
            | str s => simp [pyAppend] at h
            | none => simp [pyIndex] at h0
            | num q => simp [pyIndex] at h0
            | geo t c => simp [pyIndex] at h0

theorem closeRing_eq (xs : List PyVal) (x : PyVal) (hx : xs.head? = some x) :
    closeRing (.seq xs) = .ok (.seq (xs ++ if xs.getLast? = some x then [] else [x])) := by
  cases xs with
  | nil => simp at hx
  | cons a t =>
      have hx' : a = x := by simpa using hx
      subst hx'
      obtain ⟨y, hy⟩ : ∃ y, (a :: t).getLast? = some y := by
        cases h : (a :: t).getLast? with
        | some z => exact ⟨z, rfl⟩
        | none => rw [List.getLast?_eq_none_iff] at h; cases h
      unfold closeRing
      simp only [pyIndex_seq_zero, pyIndex_seq_neg_one hy, hy]
      by_cases hay : a = y
      · subst hay
        simp
      · rw [if_pos (by simpa using hay)]
        have hya : ¬ (some y = some a) := by
          intro hc
          exact hay (Option.some.inj hc).symm
        simp [pyAppend, hya]

theorem linearRing_ringClosed_init {r : PyVal} {lr : LinearRing}
    (h : LinearRing.init r = .ok lr) :
    ∃ f, pyIndex lr._coordinates 0 = .ok f ∧ pyIndex lr._coordinates (-1) = .ok f := by
  unfold LinearRing.init at h
  cases h0 : LineString.init r with
  | error e => rw [h0] at h; exact absurd h (by simp)
  | ok ls =>
      simp only [h0] at h
      cases h1 : closeRing ls._coordinates with
      | error e => rw [h1] at h; exact absurd h (by simp)
      | ok w =>
          simp only [h1] at h
          cases h
          exact closeRing_closed h1

theorem linearRing_ringClosed_set {v : PyVal} {lr : LinearRing}
    (h : LinearRing.setCoords v = .ok lr) :
    ∃ f, pyIndex lr._coordinates 0 = .ok f ∧ pyIndex lr._coordinates (-1) = .ok f := by
  unfold LinearRing.setCoords at h
  cases h0 : LineString.setCoords v with
  | error e => rw [h0] at h; exact absurd h (by simp)
  | ok ls =>
      simp only [h0] at h
      cases h1 : closeRing ls._coordinates with
      | error e => rw [h1] at h; exact absurd h (by simp)
      | ok w =>
          simp only [h1] at h
          cases h
          exact closeRing_closed h1

/-- Claim C1: every accepted LinearRing construction (raw sequence or
mapping input) yields a ring whose first stored coordinate equals its
last, the same holds after every coords-setter replacement, and the
closing step appends a duplicate of the first coordinate exactly when the
sequence does not already close. -/
theorem linearRing_closure :
    (∀ (r : PyVal) (lr : LinearRing), LinearRing.init r = .ok lr →
        ∃ f, pyIndex lr._coordinates 0 = .ok f ∧ pyIndex lr._coordinates (-1) = .ok f)
  ∧ (∀ (v : PyVal) (lr : LinearRing), LinearRing.setCoords v = .ok lr →
        ∃ f, pyIndex lr._coordinates 0 = .ok f ∧ pyIndex lr._coordinates (-1) = .ok f)
  ∧ (∀ (xs : List PyVal) (x : PyVal), xs.head? = some x →
        closeRing (.seq xs) = .ok (.seq (xs ++ if xs.getLast? = some x then [] else [x]))) :=
  ⟨fun _ _ h => linearRing_ringClosed_init h,
   fun _ _ h => linearRing_ringClosed_set h,
   closeRing_eq⟩

/-- Witness for C1 at the open square-corner input ((0,0),(1,1)). -/
theorem linearRing_closure_witness :
    (∃ f, pyIndex (PyVal.seq [.seq [.num 0, .num 0], .seq [.num 1, .num 1], .seq [.num 0, .num 0]]) 0 = .ok f ∧
          pyIndex (PyVal.seq [.seq [.num 0, .num 0], .seq [.num 1, .num 1], .seq [.num 0, .num 0]]) (-1) = .ok f)
  ∧ (∃ f, pyIndex (PyVal.seq [.seq [.num 0, .num 0], .seq [.num 1, .num 1], .seq [.num 0, .num 0]]) 0 = .ok f ∧
          pyIndex (PyVal.seq [.seq [.num 0, .num 0], .seq [.num 1, .num 1], .seq [.num 0, .num 0]]) (-1) = .ok f)
  ∧ closeRing (.seq [.seq [.num 0, .num 0], .seq [.num 1, .num 1]]) =
      .ok (.seq ([PyVal.seq [.num 0, .num 0], PyVal.seq [.num 1, .num 1]] ++
        (if [PyVal.seq [.num 0, .num 0], PyVal.seq [.num 1, .num 1]].getLast? = some (PyVal.seq [.num 0, .num 0]) then [] else [PyVal.seq [.num 0, .num 0]]))) :=
  ⟨linearRing_closure.1 (.seq [.seq [.num 0, .num 0], .seq [.num 1, .num 1]])
      ⟨.seq [.seq [.num 0, .num 0], .seq [.num 1, .num 1], .seq [.num 0, .num 0]]⟩ (by decide),
   linearRing_closure.2.1 (.seq [.seq [.num 0, .num 0], .seq [.num 1, .num 1]])
      ⟨.seq [.seq [.num 0, .num 0], .seq [.num 1, .num 1], .seq [.num 0, .num 0]]⟩ (by decide),
   linearRing_closure.2.2 [.seq [.num 0, .num 0], .seq [.num 1, .num 1]] (.seq [.num 0, .num 0]) (by decide)⟩

/-- Claim C2: a sequence of 2-3 float-coercible values builds a Point
whose coordinate tuple is the tuple of float coercions; 2-3 positional
values passed directly behave the same; zero positional values or more
than three raise ValueError. -/
theorem point_construction :
    (∀ (c : List PyVal) (qs : List ℚ),
        2 ≤ c.length → c.length ≤ 3 → pyFloatList c = .ok qs →
        Point.init [.seq c] = .ok ⟨qs.map PyVal.num⟩ ∧
        Point.init c = .ok ⟨qs.map PyVal.num⟩)
  ∧ (∀ args : List PyVal, args.length = 0 ∨ 3 < args.length →
        Point.init args = .error .valueError) := by
  constructor
  · intro c qs h2 h3 hq
    constructor
    · simp [Point.init, hq, h2, h3]
    · rcases c with _ | ⟨x, _ | ⟨y, _ | ⟨z, _ | ⟨w, t⟩⟩⟩⟩
      · simp at h2
      · simp at h2
      · simp [Point.init, hq]
      · simp [Point.init, hq]
      · simp at h3
  · intro args hlen
    rcases args with _ | ⟨a, _ | ⟨b, _ | ⟨c, _ | ⟨d, t⟩⟩⟩⟩
    · rfl
    · simp at hlen
    · simp at hlen
    · simp at hlen
    · have hgt : ¬ (2 ≤ (a :: b :: c :: d :: t).length ∧ (a :: b :: c :: d :: t).length ≤ 3) := by
        simp
      simp [Point.init, hgt]

/-- Witness for C2 at the two-element sequence (1.0, -1.0) and at the
empty and four-long argument lists. -/
theorem point_construction_witness :
    (Point.init [.seq [.num 1, .num (-1)]] = .ok ⟨[PyVal.num 1, PyVal.num (-1)]⟩ ∧
     Point.init [.num 1, .num (-1)] = .ok ⟨[PyVal.num 1, PyVal.num (-1)]⟩)
  ∧ Point.init [] = .error .valueError
  ∧ Point.init [.num 1, .num 2, .num 3, .num 4] = .error .valueError :=
  ⟨point_construction.1 [.num 1, .num (-1)] [1, -1] (by decide) (by decide) (by decide),
   point_construction.2 [] (by decide),
   point_construction.2 [.num 1, .num 2, .num 3, .num 4] (by decide)⟩

theorem pyFloatList_num (qs : List ℚ) :
    pyFloatList (qs.map PyVal.num) = .ok qs := by
  induction qs with
  | nil => rfl
  | cons q rest ih => simp [pyFloatList, pyFloat, ih]

theorem point_init_enc (qs : List ℚ) (h2 : 2 ≤ qs.length) (h3 : qs.length ≤ 3) :
    Point.init [.seq (qs.map PyVal.num)] = .ok ⟨qs.map PyVal.num⟩ := by
  have hlen2 : 2 ≤ (qs.map PyVal.num).length := by simpa using h2
  have hlen3 : (qs.map PyVal.num).length ≤ 3 := by simpa using h3
  simp [Point.init, pyFloatList_num, h2, h3]

theorem lineCoords_ok_uniform :
    ∀ (c acc : List PyVal) (l2 : ℕ) (out : List PyVal),
      lineCoords c acc l2 = .ok out →
      (∀ v ∈ acc, ∃ ps : List PyVal, v = .seq ps ∧ ps.length = l2) →
      ∃ n, ∀ v ∈ out, ∃ ps : List PyVal, v = .seq ps ∧ ps.length = n := by
  intro c
  induction c with
  | nil =>
      intro acc l2 out h hacc
      cases h
      exact ⟨l2, hacc⟩
  | cons c0 rest ih =>
      intro acc l2 out h hacc
      unfold lineCoords at h
      cases hp : Point.init [c0] with
      | error e => rw [hp] at h; exact absurd h (by simp)
      | ok p =>
          simp only [hp] at h
          by_cases hcond : acc ≠ [] ∧ p._coordinates.length ≠ l2
          · rw [if_pos hcond] at h
            exact absurd h (by simp)
          · rw [if_neg hcond] at h
            refine ih _ _ _ h ?_
            intro v hv
            rcases List.mem_append.mp hv with hv1 | hv2
            · rcases hacc v hv1 with ⟨ps, hps, hlen⟩
              refine ⟨ps, hps, ?_⟩
              rcases Classical.em (acc = []) with hae | hane
              · exact absurd (hae ▸ hv1) (List.not_mem_nil v)
              · push_neg at hcond
                rw [hlen]
                exact (hcond hane).symm
            · have : v = .seq p._coordinates := by simpa using hv2
              exact ⟨p._coordinates, this, rfl⟩

theorem lineCoords_enc_mixed :
    ∀ (c : List (List ℚ)) (acc : List PyVal) (l2 : ℕ),
      (∀ q ∈ c, 2 ≤ q.length ∧ q.length ≤ 3) →
      acc ≠ [] →
      (∃ q ∈ c, q.length ≠ l2) →
      lineCoords (c.map (fun q => PyVal.seq (q.map PyVal.num))) acc l2 = .error .valueError := by
  intro c
  induction c with
  | nil =>
      intro acc l2 _ _ hex
      simp at hex
  | cons q rest ih =>
      intro acc l2 hvalid hacc hex
      have hq2 := (hvalid q (by simp)).1
      have hq3 := (hvalid q (by simp)).2
      have hp := point_init_enc q hq2 hq3
      unfold lineCoords
      simp only [List.map_cons, hp]
      by_cases hlq : q.length = l2
      · have hcond : ¬ (acc ≠ [] ∧ (Point.mk (q.map PyVal.num))._coordinates.length ≠ l2) := by
          simp [hlq]
        rw [if_neg hcond]
        simp only [List.length_map]
        refine ih _ _ (fun r hr => hvalid r (by simp [hr])) (by simp) ?_
        rcases hex with ⟨q', hq', hne⟩
        rcases List.mem_cons.mp hq' with rfl | hmem
        · exact absurd hlq hne
        · exact ⟨q', hmem, by rw [hlq]; exact hne⟩
      · have hcond : acc ≠ [] ∧ (Point.mk (q.map PyVal.num))._coordinates.length ≠ l2 := by
          constructor
          · exact hacc
          · simpa using hlq
        rw [if_pos hcond]

/-- Claim C3: a raw LineString input mixing 2-element and 3-element points
fails with ValueError (the length of each normalised point is checked
against the previous one from the second element onward), and every
successfully constructed raw LineString stores coordinates of one common
length. -/
theorem lineString_dimensionality :
    (∀ (c : List (List ℚ)),
        (∀ q ∈ c, q.length = 2 ∨ q.length = 3) →
        (∃ a ∈ c, a.length = 2) →
        (∃ b ∈ c, b.length = 3) →
        LineString.init (.seq (c.map (fun q => PyVal.seq (q.map PyVal.num)))) = .error .valueError)
  ∧ (∀ (xs : List PyVal) (ls : LineString),
        LineString.init (.seq xs) = .ok ls →
        ∃ cs n, ls._coordinates = .seq cs ∧
          ∀ v ∈ cs, ∃ ps : List PyVal, v = .seq ps ∧ ps.length = n) := by
  constructor
  · intro c hval hex2 hex3
    rcases c with _ | ⟨q0, rest⟩
    · rcases hex2 with ⟨a, ha, _⟩; simp at ha
    · have hq02 : 2 ≤ q0.length := by
        rcases hval q0 (by simp) with h | h <;> omega
      have hq03 : q0.length ≤ 3 := by
        rcases hval q0 (by simp) with h | h <;> omega
      have hp := point_init_enc q0 hq02 hq03
      have hmain : lineCoords ((q0 :: rest).map (fun q => PyVal.seq (q.map PyVal.num))) [] 0 = .error .valueError := by
        unfold lineCoords
        simp only [List.map_cons, hp]
        have hcond : ¬ (([] : List PyVal) ≠ [] ∧ (Point.mk (q0.map PyVal.num))._coordinates.length ≠ 0) := by
          simp
        rw [if_neg hcond]
        simp only [List.length_map, List.nil_append]
        apply lineCoords_enc_mixed rest [.seq (q0.map PyVal.num)] q0.length
        · intro r hr
          rcases hval r (by simp [hr]) with h | h <;> omega
        · simp
        · rcases hval q0 (by simp) with h0 | h0
          · rcases hex3 with ⟨b, hb, hb3⟩
            rcases List.mem_cons.mp hb with rfl | hbm
            · omega
            · exact ⟨b, hbm, by omega⟩
          · rcases hex2 with ⟨a, ha, ha2⟩
            rcases List.mem_cons.mp ha with rfl | ham
            · omega
            · exact ⟨a, ham, by omega⟩
      rw [List.map_cons] at hmain
      simp [LineString.init, hmain]
  · intro xs ls h
    simp only [LineString.init] at h
    cases hc : lineCoords xs [] 0 with
    | error e => rw [hc] at h; exact absurd h (by simp)
    | ok cs =>
        simp only [hc] at h
        cases h
        rcases lineCoords_ok_uniform xs [] 0 cs hc (by simp) with ⟨n, hn⟩
        exact ⟨cs, n, rfl, hn⟩

/-- Witness for C3: a mixed 2D/3D input fails; a one-point 2D input
succeeds with uniform stored lengths. -/
theorem lineString_dimensionality_witness :
    LineString.init (.seq (([[0, 0], [1, 1, 1]] : List (List ℚ)).map (fun q => PyVal.seq (q.map PyVal.num)))) = .error .valueError
  ∧ ∃ cs n, (LineString.mk (.seq [.seq [.num 0, .num 0]]))._coordinates = .seq cs ∧
      ∀ v ∈ cs, ∃ ps : List PyVal, v = .seq ps ∧ ps.length = n :=
  ⟨lineString_dimensionality.1 [[0, 0], [1, 1, 1]] (by decide) (by decide) (by decide),
   lineString_dimensionality.2 [.seq [.num 0, .num 0]] ⟨.seq [.seq [.num 0, .num 0]]⟩ (by decide)⟩

/-- Claim C4 (defect evidence): for every input without the
structural-mapping protocol, as_shape RETURNS a TypeError instance as an
ordinary value instead of raising it. -/
theorem as_shape_nongeo_returns_error_value :
    ∀ v : PyVal, (∀ t c, v ≠ .geo t c) → as_shape v = .ok (.errObj .typeError) := by
  intro v hv
  cases v with
  | geo t c => exact absurd rfl (hv t c)
  | none => rfl
  | num q => rfl
  | str s => rfl
  | seq xs => rfl

/-- Witness for C4: the non-mapping input 5. -/
theorem as_shape_nongeo_returns_error_value_witness :
    as_shape (.num 5) = .ok (.errObj .typeError) :=
  as_shape_nongeo_returns_error_value (.num 5) (fun _ _ h => PyVal.noConfusion h)

/-- Claim C7 (defect evidence): a single mapping object declaring a type
other than LineString, LinearRing or MultiLineString silently constructs
an EMPTY MultiLineString instead of failing with a type error. -/
theorem multiLineString_mapping_fallthrough :
    ∀ (t : String) (c : PyVal),
      t ≠ tyLineString → t ≠ tyLinearRing → t ≠ tyMultiLineString →
      MultiLineString.init (.geo t c) = .ok ⟨[]⟩ := by
  intro t c h1 h2 h3
  simp [MultiLineString.init, h1, h2, h3]

/-- Witness for C7: a Polygon-typed mapping. -/
theorem multiLineString_mapping_fallthrough_witness :
    MultiLineString.init (.geo tyPolygon (.seq [])) = .ok ⟨[]⟩ :=
  multiLineString_mapping_fallthrough tyPolygon (.seq [])
    (by decide) (by decide) (by decide)

/-- Claim C10: constructing a LineString from the empty sequence succeeds
(no minimum length check), the resulting structural-mapping view is
absent (None), and the {type, coordinates} view is produced exactly for
non-empty stored sequences. -/
theorem lineString_empty_geo_interface :
    LineString.init (.seq []) = .ok ⟨.seq []⟩
  ∧ LineString.geoInterface ⟨.seq []⟩ = .ok Option.none
  ∧ (∀ cs : List PyVal, cs ≠ [] →
      LineString.geoInterface ⟨.seq cs⟩ = .ok (Option.some (tyLineString, cs))) := by
  refine ⟨by decide, by decide, ?_⟩
  intro cs hcs
  simp [LineString.geoInterface, pyTruthy, pyTuple, hcs]

/-- Witness for C10 at a one-point stored sequence. -/
theorem lineString_empty_geo_interface_witness :
    LineString.geoInterface ⟨.seq [.seq [.num 0, .num 0]]⟩ =
      .ok (Option.some (tyLineString, [.seq [.num 0, .num 0]])) :=
  lineString_empty_geo_interface.2.2 [.seq [.num 0, .num 0]] (by decide)

/-- Claim C5: from_wkt parses the supported WKT subset - the POINT and
LINESTRING scenarios give exactly the coordinates of the directly
constructed geometries - and any other prefix than POINT, LINESTRING and
LINEARRING raises NotImplementedError. -/
theorem from_wkt_spec :
    from_wkt "POINT (1.0 -1.0)" = .ok (.point ⟨[PyVal.num 1, PyVal.num (-1)]⟩)
  ∧ Point.init [.num (1 : ℚ), .num (-1 : ℚ)] = .ok ⟨[PyVal.num 1, PyVal.num (-1)]⟩
  ∧ from_wkt "LINESTRING (0 0, 1 0, 1 1)" =
      .ok (.lineString ⟨.seq [.seq [.num 0, .num 0], .seq [.num 1, .num 0], .seq [.num 1, .num 1]]⟩)
  ∧ (∀ s : String,
      ¬ List.isPrefixOf wktPOINT.data (pyStripChars s.data) = true →
      ¬ List.isPrefixOf wktLINESTRING.data (pyStripChars s.data) = true →
      ¬ List.isPrefixOf wktLINEARRING.data (pyStripChars s.data) = true →
      from_wkt s = .error .notImplementedError) := by
  refine ⟨by decide, by decide, by decide, ?_⟩
  intro s h1 h2 h3
  simp [from_wkt, h1, h2, h3]

/-- Witness for C5's unsupported-prefix clause. -/
theorem from_wkt_spec_witness :
    from_wkt "TRIANGLE (0 0)" = .error .notImplementedError :=
  from_wkt_spec.2.2.2 "TRIANGLE (0 0)" (by decide) (by decide) (by decide)

/-- Counterexample to C6 as stated: with a Polygon mapping shell carrying
exactly one ring, the separately passed holes parameter is NOT ignored -
the holes-derived interiors are retained. -/
theorem polygon_holes_not_ignored_cex :
    Polygon.init
        (.geo tyPolygon (.seq [.seq [.seq [.num 0, .num 0], .seq [.num 0, .num 1], .seq [.num 1, .num 1], .seq [.num 0, .num 0]]]))
        .none
      = .ok ⟨Option.some ⟨.seq [.seq [.num 0, .num 0], .seq [.num 0, .num 1], .seq [.num 1, .num 1], .seq [.num 0, .num 0]]⟩, []⟩
  ∧ Polygon.init
        (.geo tyPolygon (.seq [.seq [.seq [.num 0, .num 0], .seq [.num 0, .num 1], .seq [.num 1, .num 1], .seq [.num 0, .num 0]]]))
        (.seq [.seq [.seq [.num 2, .num 2], .seq [.num 2, .num 3], .seq [.num 3, .num 3], .seq [.num 2, .num 2]]])
      = .ok ⟨Option.some ⟨.seq [.seq [.num 0, .num 0], .seq [.num 0, .num 1], .seq [.num 1, .num 1], .seq [.num 0, .num 0]]⟩,
             [⟨.seq [.seq [.num 2, .num 2], .seq [.num 2, .num 3], .seq [.num 3, .num 3], .seq [.num 2, .num 2]]⟩]⟩
  ∧ ([] : List LinearRing) ≠
      [⟨.seq [.seq [.num 2, .num 2], .seq [.num 2, .num 3], .seq [.num 3, .num 3], .seq [.num 2, .num 2]]⟩] := by
  refine ⟨by decide, by decide, by decide⟩

/-- Polygon.__init__ on a Polygon-typed mapping shell dispatches to the
mapping-shell branch after processing the holes. -/
theorem polygon_init_geoPolygon (c holes : PyVal) :
    Polygon.init (.geo tyPolygon c) holes =
      (match processHoles holes with
       | .error e => .error e
       | .ok hrs => polygonGeoShell c hrs) := by
  unfold Polygon.init
  cases processHoles holes with
  | error e => rfl
  | ok hrs => rfl

/-- Evaluation of the mapping-shell branch on a materialised ring list:
the first ring becomes the exterior; the remaining rings become the
interiors when there is more than one ring, else the holes-derived
interiors are kept. -/
theorem polygonGeoShell_cons (r : PyVal) (rs : List PyVal) (hrs : List LinearRing) :
    polygonGeoShell (.seq (r :: rs)) hrs =
      (match LinearRing.init r with
       | .error e => .error e
       | .ok ext =>
          if rs = [] then .ok ⟨Option.some ext, hrs⟩
          else
            match ringsOf rs with
            | .error e => .error e
            | .ok irs => .ok ⟨Option.some ext, irs⟩) := by
  unfold polygonGeoShell
  simp only [pyIndex_seq_zero]
  cases LinearRing.init r with
  | error e => rfl
  | ok ext =>
      cases rs with
      | nil => rfl
      | cons a t =>
          simp only [pyLen]
          have hlen : 1 < (r :: a :: t).length := by
            simp only [List.length_cons]
            omega
          rw [if_pos hlen]
          simp only [pySliceFrom1, List.drop_succ_cons, List.drop_zero]
          cases ringsOf (a :: t) with
          | error e => rfl
          | ok irs => rfl

/-- C6 amended: for a Polygon-typed mapping shell, the mapping's first
ring always becomes the exterior; when the mapping carries MORE than one
ring the remaining rings become the interiors and the holes parameter is
ignored; when it carries exactly one ring the interiors derived from the
holes parameter are retained. -/
theorem polygon_mapping_shell :
    (∀ (r : PyVal) (rs : List PyVal) (holes : PyVal) (p : Polygon),
        rs ≠ [] →
        Polygon.init (.geo tyPolygon (.seq (r :: rs))) holes = .ok p →
        (∃ ext, LinearRing.init r = .ok ext ∧ p._exterior = Option.some ext)
        ∧ (∃ irs, ringsOf rs = .ok irs ∧ p._interiors = irs))
  ∧ (∀ (r : PyVal) (holes : PyVal) (p : Polygon),
        Polygon.init (.geo tyPolygon (.seq [r])) holes = .ok p →
        (∃ ext, LinearRing.init r = .ok ext ∧ p._exterior = Option.some ext)
        ∧ (∃ hrs, processHoles holes = .ok hrs ∧ p._interiors = hrs)) := by
  constructor
  · intro r rs holes p hrs0 h
    rw [polygon_init_geoPolygon] at h
    cases hh : processHoles holes with
    | error e => rw [hh] at h; exact absurd h (by simp)
    | ok hrs =>
        simp only [hh] at h
        rw [polygonGeoShell_cons] at h
        cases hr : LinearRing.init r with
        | error e => rw [hr] at h; exact absurd h (by simp)
        | ok ext =>
            simp only [hr] at h
            rw [if_neg hrs0] at h
            cases hrr : ringsOf rs with
            | error e => rw [hrr] at h; exact absurd h (by simp)
            | ok irs =>
                simp only [hrr] at h
                cases h
                exact ⟨⟨ext, rfl, rfl⟩, ⟨irs, rfl, rfl⟩⟩
  · intro r holes p h
    rw [polygon_init_geoPolygon] at h
    cases hh : processHoles holes with
    | error e => rw [hh] at h; exact absurd h (by simp)
    | ok hrs =>
        simp only [hh] at h
        rw [polygonGeoShell_cons] at h
        cases hr : LinearRing.init r with
        | error e => rw [hr] at h; exact absurd h (by simp)
        | ok ext =>
            simp only [hr] at h
            rw [if_pos trivial] at h
            cases h
            exact ⟨⟨ext, rfl, rfl⟩, ⟨hrs, rfl, rfl⟩⟩

/-- Witness for the amended C6 at a two-ring mapping shell (first part)
and a one-ring mapping shell (second part). -/
theorem polygon_mapping_shell_witness :
    ((∃ ext, LinearRing.init (.seq [.seq [.num 0, .num 0], .seq [.num 0, .num 1], .seq [.num 1, .num 1], .seq [.num 0, .num 0]]) = .ok ext ∧
        (Polygon.mk (Option.some ⟨.seq [.seq [.num 0, .num 0], .seq [.num 0, .num 1], .seq [.num 1, .num 1], .seq [.num 0, .num 0]]⟩)
          [⟨.seq [.seq [.num 2, .num 2], .seq [.num 2, .num 3], .seq [.num 3, .num 3], .seq [.num 2, .num 2]]⟩])._exterior = Option.some ext)
     ∧ (∃ irs, ringsOf [.seq [.seq [.num 2, .num 2], .seq [.num 2, .num 3], .seq [.num 3, .num 3], .seq [.num 2, .num 2]]] = .ok irs ∧
        (Polygon.mk (Option.some ⟨.seq [.seq [.num 0, .num 0], .seq [.num 0, .num 1], .seq [.num 1, .num 1], .seq [.num 0, .num 0]]⟩)
          [⟨.seq [.seq [.num 2, .num 2], .seq [.num 2, .num 3], .seq [.num 3, .num 3], .seq [.num 2, .num 2]]⟩])._interiors = irs))
  ∧ ((∃ ext, LinearRing.init (.seq [.seq [.num 0, .num 0], .seq [.num 0, .num 1], .seq [.num 1, .num 1], .seq [.num 0, .num 0]]) = .ok ext ∧
        (Polygon.mk (Option.some ⟨.seq [.seq [.num 0, .num 0], .seq [.num 0, .num 1], .seq [.num 1, .num 1], .seq [.num 0, .num 0]]⟩) [])._exterior = Option.some ext)
     ∧ (∃ hrs, processHoles .none = .ok hrs ∧
        (Polygon.mk (Option.some ⟨.seq [.seq [.num 0, .num 0], .seq [.num 0, .num 1], .seq [.num 1, .num 1], .seq [.num 0, .num 0]]⟩) [])._interiors = hrs)) :=
  ⟨polygon_mapping_shell.1
      (.seq [.seq [.num 0, .num 0], .seq [.num 0, .num 1], .seq [.num 1, .num 1], .seq [.num 0, .num 0]])
      [.seq [.seq [.num 2, .num 2], .seq [.num 2, .num 3], .seq [.num 3, .num 3], .seq [.num 2, .num 2]]]
      .none
      (Polygon.mk (Option.some ⟨.seq [.seq [.num 0, .num 0], .seq [.num 0, .num 1], .seq [.num 1, .num 1], .seq [.num 0, .num 0]]⟩)
        [⟨.seq [.seq [.num 2, .num 2], .seq [.num 2, .num 3], .seq [.num 3, .num 3], .seq [.num 2, .num 2]]⟩])
      (by decide) (by decide),
   polygon_mapping_shell.2
      (.seq [.seq [.num 0, .num 0], .seq [.num 0, .num 1], .seq [.num 1, .num 1], .seq [.num 0, .num 0]])
      .none
      (Polygon.mk (Option.some ⟨.seq [.seq [.num 0, .num 0], .seq [.num 0, .num 1], .seq [.num 1, .num 1], .seq [.num 0, .num 0]]⟩) [])
      (by decide)⟩

/-- Counterexample to C8 as stated: a LineString mapping whose verbatim
coordinates are the already-closed pair (5.0, 5.0) is accepted by the
LinearRing constructor and its coords read back, yet rebuilding a
LinearRing from those coords raises TypeError instead of reproducing
them. -/
theorem ring_reclose_not_idempotent_cex :
    LinearRing.init (.geo tyLineString (.seq [.num 5, .num 5])) = .ok ⟨.seq [.num 5, .num 5]⟩
  ∧ LinearRing.coords ⟨.seq [.num 5, .num 5]⟩ = .ok [.num 5, .num 5]
  ∧ LinearRing.init (.seq [.num 5, .num 5]) = .error .typeError := by
  refine ⟨by decide, by decide, by decide⟩

theorem pyIndex_seq_neg_one_ok {xs : List PyVal} {y : PyVal}
    (h : pyIndex (.seq xs) (-1) = .ok y) : xs.getLast? = some y := by
  simp only [pyIndex, indexList_neg_one] at h
  cases hl : xs.getLast? with
  | none => rw [hl] at h; exact absurd h (by simp)
  | some z => rw [hl] at h; cases h; rfl

theorem lineCoords_enc_ok :
    ∀ (c : List (List ℚ)) (acc : List PyVal) (l2 n : ℕ),
      (∀ q ∈ c, q.length = n) → 2 ≤ n → n ≤ 3 →
      (acc = [] ∨ l2 = n) →
      lineCoords (c.map (fun q => PyVal.seq (q.map PyVal.num))) acc l2 =
        .ok (acc ++ c.map (fun q => PyVal.seq (q.map PyVal.num))) := by
  intro c
  induction c with
  | nil =>
      intro acc l2 n _ _ _ _
      simp [lineCoords]
  | cons q rest ih =>
      intro acc l2 n hval h2 h3 hor
      have hqn : q.length = n := hval q (by simp)
      have hp := point_init_enc q (by omega) (by omega)
      unfold lineCoords
      simp only [List.map_cons, hp]
      have hcond : ¬ (acc ≠ [] ∧ (Point.mk (q.map PyVal.num))._coordinates.length ≠ l2) := by
        rcases hor with h | h
        · simp [h]
        · simp [h, hqn]
      rw [if_neg hcond]
      simp only [List.length_map, hqn]
      have hrec := ih (acc ++ [.seq (q.map PyVal.num)]) n n (fun r hr => hval r (by simp [hr])) h2 h3 (Or.inr rfl)
      rw [hrec]
      simp

/-- The LinearRing.coords getter succeeds on a stored value whose first
and last items agree. -/
theorem linearRing_coords_of (v f : PyVal) (cs : List PyVal)
    (h0 : pyIndex v 0 = .ok f) (h1 : pyIndex v (-1 : Int) = .ok f)
    (ht : pyTuple v = .ok cs) :
    LinearRing.coords ⟨v⟩ = .ok cs := by
  unfold LinearRing.coords
  simp only [h0, h1]
  rw [if_pos trivial]
  exact ht

/-- C8 amended: re-closing is idempotent for every accepted LinearRing
whose stored coordinates read back as numeric coordinate rows of one
common length 2 or 3 (in particular, every ring built from raw numeric
coordinate input): rebuilding a LinearRing from its coords succeeds and
reproduces exactly the same coordinate tuple. -/
theorem ring_reclose_idempotent :
    ∀ (r : PyVal) (lr : LinearRing) (qs : List (List ℚ)) (n : ℕ),
      LinearRing.init r = .ok lr →
      LinearRing.coords lr = .ok (qs.map (fun q => PyVal.seq (q.map PyVal.num))) →
      (∀ q ∈ qs, q.length = n) → 2 ≤ n → n ≤ 3 →
      ∃ lr2, LinearRing.init (.seq (qs.map (fun q => PyVal.seq (q.map PyVal.num)))) = .ok lr2 ∧
        LinearRing.coords lr2 = .ok (qs.map (fun q => PyVal.seq (q.map PyVal.num))) := by
  intro r lr qs n hinit hc hval h2 h3
  unfold LinearRing.coords at hc
  cases hf : pyIndex lr._coordinates 0 with
  | error e => rw [hf] at hc; exact absurd hc (by simp)
  | ok f =>
      simp only [hf] at hc
      cases hl : pyIndex lr._coordinates (-1 : Int) with
      | error e => rw [hl] at hc; exact absurd hc (by simp)
      | ok l =>
          simp only [hl] at hc
          by_cases hfl : f = l
          · rw [if_pos hfl] at hc
            cases hv : lr._coordinates with
            | seq xs =>
                rw [hv] at hc hf hl
                simp only [pyTuple] at hc
                have hxm : xs = qs.map (fun q => PyVal.seq (q.map PyVal.num)) := by
                  simpa using hc
                subst hxm
                rcases pyIndex_seq_zero_ok hf with ⟨t, hxs⟩
                have hlast := pyIndex_seq_neg_one_ok hl
                have hline : lineCoords (qs.map (fun q => PyVal.seq (q.map PyVal.num))) [] 0 =
                    .ok (qs.map (fun q => PyVal.seq (q.map PyVal.num))) := by
                  have hrec := lineCoords_enc_ok qs [] 0 n hval h2 h3 (Or.inl rfl)
                  simpa using hrec
                have hls : LineString.init (.seq (qs.map (fun q => PyVal.seq (q.map PyVal.num)))) =
                    .ok ⟨.seq (qs.map (fun q => PyVal.seq (q.map PyVal.num)))⟩ := by
                  simp [LineString.init, hline]
                have hhead : (qs.map (fun q => PyVal.seq (q.map PyVal.num))).head? = some f := by
                  rw [hxs]; rfl
                have hgl : (qs.map (fun q => PyVal.seq (q.map PyVal.num))).getLast? = some f := by
                  rw [hfl]; exact hlast
                have hclose := closeRing_eq (qs.map (fun q => PyVal.seq (q.map PyVal.num))) f hhead
                rw [if_pos hgl] at hclose
                rw [List.append_nil] at hclose
                refine ⟨⟨.seq (qs.map (fun q => PyVal.seq (q.map PyVal.num)))⟩, ?_, ?_⟩
                · unfold LinearRing.init
                  rw [hls]
                  simp only [hclose]
                · refine linearRing_coords_of _ f _ ?_ ?_ rfl
                  · rw [hxs]
                    exact pyIndex_seq_zero f t
                  · exact pyIndex_seq_neg_one hgl
            | str s =>
                rw [hv] at hc hf
                simp only [pyTuple] at hc
                cases qs with
                | nil =>
                    have hsd : s.data = [] := by simpa using hc
                    simp [pyIndex, indexList, hsd] at hf
                | cons q qt =>
                    cases hds : s.data with
                    | nil => rw [hds] at hc; simp at hc
                    | cons ch cds => rw [hds] at hc; simp at hc
            | none => rw [hv] at hf; simp [pyIndex] at hf
            | num q => rw [hv] at hf; simp [pyIndex] at hf
            | geo t c => rw [hv] at hf; simp [pyIndex] at hf
          · rw [if_neg hfl] at hc; exact absurd hc (by simp)

/-- Witness for the amended C8 at the raw open square-corner input. -/
theorem ring_reclose_idempotent_witness :
    ∃ lr2, LinearRing.init (.seq (([[0, 0], [1, 1], [0, 0]] : List (List ℚ)).map (fun q => PyVal.seq (q.map PyVal.num)))) = .ok lr2 ∧
      LinearRing.coords lr2 = .ok (([[0, 0], [1, 1], [0, 0]] : List (List ℚ)).map (fun q => PyVal.seq (q.map PyVal.num))) :=
  ring_reclose_idempotent (.seq [.seq [.num 0, .num 0], .seq [.num 1, .num 1]])
    ⟨.seq [.seq [.num 0, .num 0], .seq [.num 1, .num 1], .seq [.num 0, .num 0]]⟩
    [[0, 0], [1, 1], [0, 0]] 2 (by decide) (by decide) (by decide) (by decide) (by decide)

/-- Counterexample to C9 as stated: a MultiPoint built from a Point
mapping with verbatim string coordinates ("1", "2") and the raw point
(1, 2) is accepted; after unique() BOTH distinct stored tuples rebuild to
the same float point, leaving two children with identical coordinate
tuples and losing the original tuple ("1", "2") from the set. -/
theorem multiPoint_unique_duplicates_cex :
    MultiPoint.init (.seq [.geo tyPoint (.seq [.str "1", .str "2"]), .seq [.num 1, .num 2]])
      = .ok ⟨[⟨[.str "1", .str "2"]⟩, ⟨[.num 1, .num 2]⟩]⟩
  ∧ MultiPoint.unique ⟨[⟨[.str "1", .str "2"]⟩, ⟨[.num 1, .num 2]⟩]⟩
      = .ok ⟨[⟨[.num 1, .num 2]⟩, ⟨[.num 1, .num 2]⟩]⟩
  ∧ ¬ (((([⟨[.num 1, .num 2]⟩, ⟨[.num 1, .num 2]⟩]) : List Point).map (fun g => PyVal.seq g._coordinates)).Nodup)
  ∧ PyVal.seq [.str "1", .str "2"] ∈
      ((([⟨[.str "1", .str "2"]⟩, ⟨[.num 1, .num 2]⟩]) : List Point).map (fun g => PyVal.seq g._coordinates))
  ∧ PyVal.seq [.str "1", .str "2"] ∉
      ((([⟨[.num 1, .num 2]⟩, ⟨[.num 1, .num 2]⟩]) : List Point).map (fun g => PyVal.seq g._coordinates)) := by
  refine ⟨by decide, by decide, by decide, by decide, by decide⟩

theorem pointsOf_enc :
    ∀ (l : List PyVal),
      (∀ v ∈ l, ∃ q : List ℚ, v = PyVal.seq (q.map PyVal.num) ∧ 2 ≤ q.length ∧ q.length ≤ 3) →
      ∃ ps, pointsOf l = .ok ps ∧
        ps.map (fun g => PyVal.seq g._coordinates) = l ∧ ps.length = l.length := by
  intro l
  induction l with
  | nil => exact fun _ => ⟨[], rfl, rfl, rfl⟩
  | cons v rest ih =>
      intro hall
      rcases hall v (by simp) with ⟨q, hv, hq2, hq3⟩
      rcases ih (fun w hw => hall w (by simp [hw])) with ⟨ps, hps, hmap, hlen⟩
      subst hv
      refine ⟨⟨q.map PyVal.num⟩ :: ps, ?_, ?_, ?_⟩
      · simp [pointsOf, point_init_enc q hq2 hq3, hps]
      · simp [hmap]
      · simp [hlen]

/-- C9 amended: for every MultiPoint whose children's stored coordinate
tuples are sequences of 2-3 numeric values (as produced by raw numeric
construction), unique() succeeds and afterwards no two children share a
coordinate tuple, the set of child coordinate tuples is unchanged, and
the child count does not grow; the order is unspecified. -/
theorem multiPoint_unique_spec :
    ∀ (m : MultiPoint) (qs : List (List ℚ)),
      m._geoms.map Point._coordinates = qs.map (List.map PyVal.num) →
      (∀ q ∈ qs, 2 ≤ q.length ∧ q.length ≤ 3) →
      ∃ m2, MultiPoint.unique m = .ok m2 ∧
        (m2._geoms.map (fun g => PyVal.seq g._coordinates)).Nodup ∧
        (∀ v, v ∈ m2._geoms.map (fun g => PyVal.seq g._coordinates) ↔
              v ∈ m._geoms.map (fun g => PyVal.seq g._coordinates)) ∧
        m2._geoms.length ≤ m._geoms.length := by
  intro m qs hcoords hval
  have hall : ∀ v ∈ (m._geoms.map (fun g => PyVal.seq g._coordinates)).dedup,
      ∃ q : List ℚ, v = PyVal.seq (q.map PyVal.num) ∧ 2 ≤ q.length ∧ q.length ≤ 3 := by
    intro v hv
    have hv2 := List.mem_dedup.mp hv
    rcases List.mem_map.mp hv2 with ⟨g, hg, rfl⟩
    have hgc : g._coordinates ∈ m._geoms.map Point._coordinates :=
      List.mem_map_of_mem _ hg
    rw [hcoords] at hgc
    rcases List.mem_map.mp hgc with ⟨q, hq, hgq⟩
    exact ⟨q, by rw [hgq], (hval q hq).1, (hval q hq).2⟩
  rcases pointsOf_enc _ hall with ⟨ps, hps, hmap, hlen⟩
  refine ⟨⟨ps⟩, ?_, ?_, ?_, ?_⟩
  · unfold MultiPoint.unique
    simp only [hps]
  · show (ps.map (fun g => PyVal.seq g._coordinates)).Nodup
    rw [hmap]
    exact List.nodup_dedup _
  · intro v
    show v ∈ ps.map (fun g => PyVal.seq g._coordinates) ↔ _
    rw [hmap]
    exact List.mem_dedup
  · show ps.length ≤ m._geoms.length
    rw [hlen]
    calc (m._geoms.map (fun g => PyVal.seq g._coordinates)).dedup.length
        ≤ (m._geoms.map (fun g => PyVal.seq g._coordinates)).length :=
          (List.dedup_sublist _).length_le
      _ = m._geoms.length := List.length_map _ _

/-- Witness for the amended C9 at a three-child numeric MultiPoint with
one duplicated coordinate tuple. -/
theorem multiPoint_unique_spec_witness :
    ∃ m2, MultiPoint.unique ⟨[⟨[.num 1, .num 2]⟩, ⟨[.num 1, .num 2]⟩, ⟨[.num 3, .num 4]⟩]⟩ = .ok m2 ∧
      (m2._geoms.map (fun g => PyVal.seq g._coordinates)).Nodup ∧
      (∀ v, v ∈ m2._geoms.map (fun g => PyVal.seq g._coordinates) ↔
            v ∈ (([⟨[.num 1, .num 2]⟩, ⟨[.num 1, .num 2]⟩, ⟨[.num 3, .num 4]⟩] : List Point).map (fun g => PyVal.seq g._coordinates))) ∧
      m2._geoms.length ≤ (([⟨[.num 1, .num 2]⟩, ⟨[.num 1, .num 2]⟩, ⟨[.num 3, .num 4]⟩] : List Point)).length :=
  multiPoint_unique_spec ⟨[⟨[.num 1, .num 2]⟩, ⟨[.num 1, .num 2]⟩, ⟨[.num 3, .num 4]⟩]⟩
    [[1, 2], [1, 2], [3, 4]] (by decide) (by decide)
